import Mathlib

/-!
Verification of the recruit_pro interview-pipeline core against its
natural-language specification.

The definitions below are a shallow embedding of the storage layer in
`DatabaseStorage` (server/storage.ts): `scheduleInterview`,
`rescheduleInterview`, `updateInterviewStage` and `syncInterviewStages`,
together with the duration handling of the HTTP scheduling route
(`server/routes/interview.routes.ts`).  `DatabaseStorage` is the
implementation exported as `storage` and called by every route; the
alternative `InterviewsRepository` in the repository is not imported by
any caller.

Conventions of the embedding:
* Timestamps are natural numbers counting milliseconds since the epoch
  (JavaScript `Date.getTime()`), with the calendar day taken as the UTC
  day (the constant timezone offset of the server is normalized away).
* Database tables are Lean lists; a drizzle `update ... where eq(id)` is
  a `List.map` touching the rows with that id, a `delete ... where` is a
  `List.filter`, an `insert` is an append.  Row order stands for the
  order in which the database returns rows.
* The audit columns `createdAt`/`updatedAt`, which every write stamps
  with the wall clock and no claim reads, are not modeled.
* A thrown JavaScript `Error` is `Except.error`; since the code throws
  before performing any write in those paths, an error result carries no
  state change.
-/

/-- Millisecond length of one minute (`duration * 60000` in the source). -/
def msPerMinute : Nat := 60000

/-- Millisecond length of one calendar day. -/
def msPerDay : Nat := 86400000

/-- Midnight of the calendar day containing `t`
(`new Date(getFullYear(), getMonth(), getDate())`). -/
def dayStartMs (t : Nat) : Nat := msPerDay * (t / msPerDay)

/-- Last whole second of the calendar day containing `t`
(`new Date(getFullYear(), getMonth(), getDate(), 23, 59, 59)`),
which is 86399000 ms past midnight. -/
def dayEndSecondMs (t : Nat) : Nat := dayStartMs t + 86399000

/-- A row of the `candidates` table (the columns the pipeline core touches). -/
structure Candidate where
  id : Nat
  currentStageIndex : Nat
  status : String
  rejectionReason : Option String
  rejectionStage : Option Nat
  deletedAt : Option Nat
deriving DecidableEq

/-- A row of the `interview_stages` table. -/
structure InterviewStage where
  id : Nat
  candidateId : Option Nat
  stageIndex : Nat
  stageName : String
  interviewerId : Option Nat
  status : String
  scheduledAt : Option Nat
  completedAt : Option Nat
  comments : Option String
  rating : Option Nat
  deletedAt : Option Nat
deriving DecidableEq

/-- A row of the `interviews` table. -/
structure Interview where
  id : Nat
  stageId : Nat
  candidateId : Option Nat
  interviewerId : Nat
  scheduledAt : Nat
  duration : Option Nat
  status : String
  outcome : Option String
  deletedAt : Option Nat
deriving DecidableEq

/-- A row of the `notifications` table (`type` is a Lean keyword, so the
column is called `ntype` here). -/
structure Notification where
  userId : Nat
  ntype : String
  relatedEntityType : String
  relatedEntityId : Nat
deriving DecidableEq

/-- The database state the pipeline core reads and writes.  `nextStageId`
and `nextInterviewId` model the `serial` primary-key sequences. -/
structure DbState where
  candidates : List Candidate
  stages : List InterviewStage
  interviews : List Interview
  notifications : List Notification
  nextStageId : Nat
  nextInterviewId : Nat
deriving DecidableEq

/-- Typed rendering of the `Error`s thrown by the storage layer:
`conflict t` is the scheduling-conflict error whose message names the
conflicting interview time `t`; `notFound` is a missing-row error. -/
inductive StorageError where
  | conflict (conflictingTime : Nat)
  | notFound
deriving DecidableEq

/-- End of an existing interview's busy window, with a `null` duration
defaulting to 30 minutes (`interview.duration ?? 30`). -/
def interviewWindowEnd (i : Interview) : Nat :=
  i.scheduledAt + (i.duration.getD 30) * msPerMinute

/-- The same-day candidate filter of `scheduleInterview`'s conflict query:
same interviewer, status `'scheduled'`, and `scheduledAt` between the day
start and the last whole second of the day of the requested time. -/
def isDayCandidate (interviewerId t : Nat) (i : Interview) : Bool :=
  i.interviewerId == interviewerId && i.status == "scheduled" &&
    decide (dayStartMs t ≤ i.scheduledAt) &&
    decide (i.scheduledAt ≤ dayEndSecondMs t)

/-- The half-open interval overlap test of the conflict check
(`startTime < existingEnd && endTime > existingStart`). -/
def overlapsNew (startTime endTime : Nat) (i : Interview) : Bool :=
  decide (startTime < interviewWindowEnd i) && decide (endTime > i.scheduledAt)

/-- The interview row `scheduleInterview` inserts on success (`status:
'scheduled'`, denormalized candidate id from the stage row). -/
def scheduledInterviewRow (db : DbState) (stageId interviewerId scheduledAt duration : Nat)
    (stage : InterviewStage) : Interview :=
  { id := db.nextInterviewId, stageId := stageId, candidateId := stage.candidateId,
    interviewerId := interviewerId, scheduledAt := scheduledAt,
    duration := some duration, status := "scheduled", outcome := Option.none,
    deletedAt := Option.none }

/-- The writes of `scheduleInterview`'s success path: insert the interview
row, set the owning stage to `in_progress` at the new time, and enqueue the
`interview_scheduled` notification to the interviewer. -/
def scheduleCommit (db : DbState) (stageId interviewerId scheduledAt duration : Nat)
    (stage : InterviewStage) : DbState :=
  { db with
      interviews := db.interviews ++
        [scheduledInterviewRow db stageId interviewerId scheduledAt duration stage],
      nextInterviewId := db.nextInterviewId + 1,
      stages := db.stages.map (fun s =>
        if s.id == stageId then
          { s with status := "in_progress", scheduledAt := some scheduledAt }
        else s),
      notifications := db.notifications ++
        [{ userId := interviewerId, ntype := "interview_scheduled",
           relatedEntityType := "interview", relatedEntityId := db.nextInterviewId }] }

/-- `DatabaseStorage.scheduleInterview(stageId, interviewerId, scheduledAt,
duration)`: load the interviewer's scheduled interviews of the same
calendar day (as bounded by `dayEndSecondMs`), fail with a conflict error
naming the first overlapping interview's time if any window overlaps
(`startTime = scheduledAt`, `endTime = scheduledAt + duration * 60000`),
fail with not-found when the stage row is missing, otherwise commit. -/
def scheduleInterview (db : DbState) (stageId interviewerId scheduledAt duration : Nat) :
    Except StorageError (DbState × Interview) :=
  match ((db.interviews.filter (isDayCandidate interviewerId scheduledAt)).filter
      (overlapsNew scheduledAt (scheduledAt + duration * msPerMinute))).head? with
  | some c => .error (.conflict c.scheduledAt)
  | none =>
    match db.stages.find? (fun s => s.id == stageId) with
    | none => .error .notFound
    | some stage =>
      .ok (scheduleCommit db stageId interviewerId scheduledAt duration stage,
           scheduledInterviewRow db stageId interviewerId scheduledAt duration stage)

/-- The core's default duration: `duration: number = 30` in the signature
of `DatabaseStorage.scheduleInterview`. -/
def scheduleInterviewDefault (db : DbState) (stageId interviewerId scheduledAt : Nat) :
    Except StorageError (DbState × Interview) :=
  scheduleInterview db stageId interviewerId scheduledAt 30

/-- `DatabaseStorage.rescheduleInterview(interviewId, newDateTime)`: set
`scheduledAt` on the row with that id (no conflict check of any kind) and,
when a row was updated, enqueue a reschedule notification.  Returns the
updated row, or `none` when no row matched. -/
def rescheduleInterview (db : DbState) (interviewId newDateTime : Nat) :
    DbState × Option Interview :=
  match db.interviews.find? (fun i => i.id == interviewId) with
  | none => (db, none)
  | some i0 =>
    let updated := { i0 with scheduledAt := newDateTime }
    let notif : Notification :=
      { userId := updated.interviewerId, ntype := "interview_rescheduled",
        relatedEntityType := "interview", relatedEntityId := updated.id }
    ({ db with
        interviews := db.interviews.map (fun i =>
          if i.id == interviewId then { i with scheduledAt := newDateTime } else i),
        notifications := db.notifications ++ [notif] }, some updated)

/-- The partial-update argument of `updateInterviewStage` (the fields of
`Partial<InsertInterviewStage>` that the stage-outcome flow supplies). -/
structure StageUpdate where
  status : Option String
  scheduledAt : Option Nat
  completedAt : Option Nat
  comments : Option String
  rating : Option Nat
deriving DecidableEq

/-- The empty partial update. -/
def StageUpdate.none : StageUpdate :=
  { status := Option.none, scheduledAt := Option.none, completedAt := Option.none,
    comments := Option.none, rating := Option.none }

/-- Apply the spread `{ ...stage }` of a partial update to a stage row:
supplied fields overwrite, absent fields are kept. -/
def applyStageUpdate (s : InterviewStage) (u : StageUpdate) : InterviewStage :=
  { s with
    status := u.status.getD s.status,
    scheduledAt := match u.scheduledAt with | some v => some v | Option.none => s.scheduledAt,
    completedAt := match u.completedAt with | some v => some v | Option.none => s.completedAt,
    comments := match u.comments with | some v => some v | Option.none => s.comments,
    rating := match u.rating with | some v => some v | Option.none => s.rating }

/-- `stage.comments || 'Failed interview stage'`: JavaScript falsiness
makes both an absent and an empty comments string fall back. -/
def rejectionReasonOf (c : Option String) : String :=
  match c with
  | Option.none => "Failed interview stage"
  | some x => if x == "" then "Failed interview stage" else x

/-- `DatabaseStorage.updateInterviewStage(id, stage)`: update the stage row
with that id (throwing `not found` only when no row exists — the query has
no tombstone filter), then run the transition engine: on `'passed'` advance
the candidate's `currentStageIndex`, notify the next stage's interviewer if
one is assigned, or move the candidate to `'documentation'` when no stage
sits at the next index; on `'failed'` mark the candidate rejected with
`rejectionStage = stageIndex` and the comments as reason. -/
def stageUpdatedDb (db : DbState) (id : Nat) (u : StageUpdate) : DbState :=
  { db with stages := db.stages.map (fun s =>
      if s.id == id then applyStageUpdate s u else s) }

/-- `update(candidates).set({ currentStageIndex })` of the passed branch. -/
def advanceCandidateIndex (db : DbState) (cid idx : Nat) : DbState :=
  { db with candidates := db.candidates.map (fun c =>
      if c.id == cid then { c with currentStageIndex := idx } else c) }

/-- `update(candidates).set({ status: 'documentation' })` when the passed
stage was the last one. -/
def setCandidateDocumentation (db : DbState) (cid : Nat) : DbState :=
  { db with candidates := db.candidates.map (fun c =>
      if c.id == cid then { c with status := "documentation" } else c) }

/-- `update(candidates).set({ status: 'rejected', rejectionStage,
rejectionReason })` of the failed branch. -/
def rejectCandidate (db : DbState) (cid stageIdx : Nat) (reason : String) : DbState :=
  { db with candidates := db.candidates.map (fun c =>
      if c.id == cid then
        { c with status := "rejected", rejectionStage := some stageIdx,
                 rejectionReason := some reason }
      else c) }

/-- `insert(notifications).values(...)`. -/
def pushNotification (db : DbState) (n : Notification) : DbState :=
  { db with notifications := db.notifications ++ [n] }

def updateInterviewStage (db : DbState) (id : Nat) (u : StageUpdate) :
    Except StorageError (DbState × InterviewStage) :=
  match db.stages.find? (fun s => s.id == id) with
  | Option.none => .error .notFound
  | some s0 =>
    let updatedStage : InterviewStage := applyStageUpdate s0 u
    let db1 : DbState := stageUpdatedDb db id u
    if u.status == some "passed" then
      match updatedStage.candidateId with
      | Option.none => .ok (db1, updatedStage)
      | some cid =>
        match db1.candidates.find? (fun c => c.id == cid) with
        | Option.none => .ok (db1, updatedStage)
        | some _ =>
          let db2 : DbState := advanceCandidateIndex db1 cid (updatedStage.stageIndex + 1)
          match db2.stages.find? (fun s =>
              s.candidateId == some cid && s.stageIndex == updatedStage.stageIndex + 1) with
          | some nextStage =>
            match nextStage.interviewerId with
            | some iid =>
              .ok (pushNotification db2
                    { userId := iid, ntype := "interview_assigned",
                      relatedEntityType := "interview_stage",
                      relatedEntityId := nextStage.id }, updatedStage)
            | Option.none => .ok (db2, updatedStage)
          | Option.none => .ok (setCandidateDocumentation db2 cid, updatedStage)
    else if u.status == some "failed" then
      match updatedStage.candidateId with
      | Option.none => .ok (db1, updatedStage)
      | some cid =>
        .ok (rejectCandidate db1 cid updatedStage.stageIndex (rejectionReasonOf u.comments),
             updatedStage)
    else .ok (db1, updatedStage)

/-- One entry of the stage chain submitted to `syncInterviewStages`. -/
structure StageSpec where
  id : Option Nat
  stageName : String
  interviewerId : Option Nat
  status : Option String
deriving DecidableEq

/-- `stage.status || 'waiting'`: absent and empty statuses default. -/
def defaultedStatus (s : Option String) : String :=
  match s with
  | Option.none => "waiting"
  | some x => if x == "" then "waiting" else x

/-- `db.delete(interviews).where(eq(interviews.stageId, sid))`. -/
def deleteInterviewsOfStage (db : DbState) (sid : Nat) : DbState :=
  { db with interviews := db.interviews.filter (fun i => !(i.stageId == sid)) }

/-- `db.delete(interviewStages).where(eq(interviewStages.id, sid))`. -/
def deleteStageRow (db : DbState) (sid : Nat) : DbState :=
  { db with stages := db.stages.filter (fun s => !(s.id == sid)) }

/-- Both hard deletes of one removed stage, in source order. -/
def deleteStageStep (db : DbState) (sid : Nat) : DbState :=
  deleteStageRow (deleteInterviewsOfStage db sid) sid

/-- Insert of a fresh stage by the sync loop (`status: stage.status ||
'waiting'`, index = position in the incoming list, timing fields unset). -/
def insertNewStage (db : DbState) (cid i : Nat) (spec : StageSpec) : DbState :=
  { db with
      stages := db.stages ++
        [{ id := db.nextStageId, candidateId := some cid, stageIndex := i,
           stageName := spec.stageName, interviewerId := spec.interviewerId,
           status := defaultedStatus spec.status, scheduledAt := Option.none,
           completedAt := Option.none, comments := Option.none, rating := Option.none,
           deletedAt := Option.none }],
      nextStageId := db.nextStageId + 1 }

/-- One iteration of the upsert loop of `syncInterviewStages`: an entry
whose id matches an existing stage updates `stageIndex`, `stageName` and
`interviewerId` in place; any other entry inserts a new stage. -/
def upsertStageStep (cid : Nat) (existingIds : List Nat) (db : DbState)
    (entry : Nat × StageSpec) : DbState :=
  let i := entry.1
  let spec := entry.2
  match spec.id with
  | some sid =>
    if existingIds.contains sid then
      { db with stages := db.stages.map (fun s =>
          if s.id == sid then
            { s with stageIndex := i, stageName := spec.stageName,
                     interviewerId := spec.interviewerId }
          else s) }
    else insertNewStage db cid i spec
  | Option.none => insertNewStage db cid i spec

/-- `DatabaseStorage.syncInterviewStages(candidateId, stages)`: read the
candidate's stored stages, hard-delete (no tombstone, no transaction in
this implementation) every stage absent from the incoming list together
with its interviews, then upsert the incoming entries in order. -/
def syncInterviewStages (db : DbState) (candidateId : Nat) (specs : List StageSpec) : DbState :=
  let existingStages := db.stages.filter (fun s => s.candidateId == some candidateId)
  let existingIds := existingStages.map (fun s => s.id)
  let newIds := specs.filterMap (fun s => s.id)
  let toDelete := existingStages.filter (fun s => !(newIds.contains s.id))
  let db1 := toDelete.foldl (fun d s => deleteStageStep d s.id) db
  (specs.enum).foldl (upsertStageStep candidateId existingIds) db1

/-- The sequence of database writes `syncInterviewStages` performs, one
entry per awaited statement (two deletes per removed stage, then one
upsert per incoming entry), all derived from the state read at entry. -/
def syncStepOps (db : DbState) (candidateId : Nat) (specs : List StageSpec) :
    List (DbState → DbState) :=
  let existingStages := db.stages.filter (fun s => s.candidateId == some candidateId)
  let existingIds := existingStages.map (fun s => s.id)
  let newIds := specs.filterMap (fun s => s.id)
  let toDelete := existingStages.filter (fun s => !(newIds.contains s.id))
  toDelete.flatMap (fun s =>
      [fun d => deleteInterviewsOfStage d s.id, fun d => deleteStageRow d s.id]) ++
    (specs.enum).map (fun e d => upsertStageStep candidateId existingIds d e)

/-- Run a prefix of the write sequence and then fail, as a database error
at the `failAfter`-th write would: the writes already performed stay (the
function has no transaction), the rest never happen.  The boolean reports
whether the run completed. -/
def runStepsWithFailure : DbState → List (DbState → DbState) → Nat → DbState × Bool
  | db, [], _ => (db, true)
  | db, _ :: _, 0 => (db, false)
  | db, op :: rest, Nat.succ n => runStepsWithFailure (op db) rest n

/-- `syncInterviewStages` under fault injection: the database throws at the
`failAfter`-th write statement. -/
def syncInterviewStagesWithFailure (db : DbState) (cid : Nat) (specs : List StageSpec)
    (failAfter : Nat) : DbState × Bool :=
  runStepsWithFailure db (syncStepOps db cid specs) failAfter

/-- The HTTP scheduling route's duration handling, `parseInt(duration) ||
60`: the outer `Option` is whether the request supplied the field, the
inner one whether `parseInt` produced a number; `0` is falsy and also
falls back to 60. -/
def routeDuration (d : Option (Option Nat)) : Nat :=
  match d with
  | some (some n) => if n == 0 then 60 else n
  | _ => 60

/-- The `POST /api/interviews` route body: it always passes an explicit
duration — `parseInt(duration) || 60` — to the core. -/
def routeScheduleInterview (db : DbState) (stageId interviewerId scheduledAt : Nat)
    (d : Option (Option Nat)) : Except StorageError (DbState × Interview) :=
  scheduleInterview db stageId interviewerId scheduledAt (routeDuration d)

/-- An empty database, used as the junk value of failed projections. -/
def emptyDb : DbState :=
  { candidates := [], stages := [], interviews := [], notifications := [],
    nextStageId := 1, nextInterviewId := 1 }

/-- State component of a successful schedule call (`emptyDb` on error). -/
def okState (r : Except StorageError (DbState × Interview)) : DbState :=
  match r with
  | .ok p => p.1
  | .error _ => emptyDb

/-- The conflicting time named by a schedule call's error, when the call
failed with the scheduling-conflict error. -/
def conflictTime : Except StorageError (DbState × Interview) → Option Nat
  | .error (.conflict c) => some c
  | _ => Option.none

/-- The `[scheduledAt, scheduledAt + duration)` windows overlap (half-open
interval intersection, durations in minutes). -/
abbrev windowsOverlap (s ds e de : Nat) : Prop :=
  s < e + de * msPerMinute ∧ e < s + ds * msPerMinute

/-- Spec invariant: no two non-cancelled, non-tombstoned interviews of one
interviewer have overlapping windows. -/
abbrev noDoubleBooking (db : DbState) : Prop :=
  ∀ i ∈ db.interviews, ∀ j ∈ db.interviews,
    i.id ≠ j.id → i.interviewerId = j.interviewerId →
    i.status ≠ "cancelled" → j.status ≠ "cancelled" →
    i.deletedAt = Option.none → j.deletedAt = Option.none →
    ¬ windowsOverlap i.scheduledAt (i.duration.getD 30) j.scheduledAt (j.duration.getD 30)

/-- The part of the no-double-booking invariant the conflict check can see:
no two `'scheduled'` interviews of one interviewer overlap. -/
abbrev scheduledNoOverlap (db : DbState) : Prop :=
  ∀ i ∈ db.interviews, ∀ j ∈ db.interviews,
    i.id ≠ j.id → i.interviewerId = j.interviewerId →
    i.status = "scheduled" → j.status = "scheduled" →
    ¬ windowsOverlap i.scheduledAt (i.duration.getD 30) j.scheduledAt (j.duration.getD 30)

/-- An interview whose start time is a whole minute and whose busy window
stays inside its own calendar day. -/
abbrev windowInDay (t dur : Nat) : Prop :=
  t % msPerMinute = 0 ∧ t % msPerDay + dur * msPerMinute ≤ msPerDay

/-- `find?` over an id-preserving rewrite of a list commutes with the
rewrite (the shape of a drizzle `update ... where` against a lookup). -/
theorem find?_map_pred_preserving {α : Type} (l : List α) (g : α → α) (p : α → Bool)
    (h : ∀ a, p (g a) = p a) :
    (l.map g).find? p = (l.find? p).map g := by
  induction l with
  | nil => rfl
  | cons a t ih =>
    cases hpa : p a with
    | true =>
      rw [List.map_cons, List.find?_cons_of_pos _ (by rw [h a]; exact hpa),
        List.find?_cons_of_pos _ hpa]
      rfl
    | false =>
      rw [List.map_cons, List.find?_cons_of_neg _ (by rw [h a]; simp [hpa]),
        List.find?_cons_of_neg _ (by simp [hpa])]
      exact ih

/-- Deleting rows that cannot match a lookup leaves the lookup unchanged. -/
theorem find?_filter_of_imp {α : Type} (l : List α) (p q : α → Bool)
    (h : ∀ a, p a = true → q a = true) :
    (l.filter q).find? p = l.find? p := by
  induction l with
  | nil => rfl
  | cons a t ih =>
    cases hq : q a with
    | true =>
      rw [List.filter_cons_of_pos hq]
      cases hpa : p a with
      | true => rw [List.find?_cons_of_pos _ hpa, List.find?_cons_of_pos _ hpa]
      | false =>
        rw [List.find?_cons_of_neg _ (by simp [hpa]), List.find?_cons_of_neg _ (by simp [hpa])]
        exact ih
    | false =>
      rw [List.filter_cons_of_neg (by simp [hq])]
      cases hpa : p a with
      | true => exact absurd (h a hpa) (by simp [hq])
      | false =>
        rw [List.find?_cons_of_neg _ (by simp [hpa])]
        exact ih

/-- Appending rows after a successful lookup leaves the lookup unchanged. -/
theorem find?_append_some {α : Type} (l₁ l₂ : List α) (p : α → Bool) (x : α)
    (h : l₁.find? p = some x) : (l₁ ++ l₂).find? p = some x := by
  induction l₁ with
  | nil => simp [List.find?] at h
  | cons a t ih =>
    cases hpa : p a with
    | true =>
      rw [List.find?_cons_of_pos _ hpa] at h
      rw [List.cons_append, List.find?_cons_of_pos _ hpa]
      exact h
    | false =>
      rw [List.find?_cons_of_neg _ (by simp [hpa])] at h
      rw [List.cons_append, List.find?_cons_of_neg _ (by simp [hpa])]
      exact ih h

/-- State component of a successful storage call (`emptyDb` on error). -/
def okStateOf {α : Type} (r : Except StorageError (DbState × α)) : DbState :=
  match r with
  | .ok p => p.1
  | .error _ => emptyDb

/-- Payload component of a successful storage call. -/
def okValueOf {α : Type} (fallback : α) (r : Except StorageError (DbState × α)) : α :=
  match r with
  | .ok p => p.2
  | .error _ => fallback

/-- A throwaway interview row, the fallback of `okValueOf`. -/
def junkInterview : Interview :=
  { id := 0, stageId := 0, candidateId := Option.none, interviewerId := 0,
    scheduledAt := 0, duration := Option.none, status := "", outcome := Option.none,
    deletedAt := Option.none }

/-- Fixture: one active candidate. -/
def candOne : Candidate :=
  { id := 1, currentStageIndex := 0, status := "active",
    rejectionReason := Option.none, rejectionStage := Option.none, deletedAt := Option.none }

/-- Fixture: first stage of candidate 1, assigned to interviewer 9. -/
def stageOne : InterviewStage :=
  { id := 1, candidateId := some 1, stageIndex := 0, stageName := "Screening",
    interviewerId := some 9, status := "in_progress", scheduledAt := some 36000000,
    completedAt := Option.none, comments := Option.none, rating := Option.none,
    deletedAt := Option.none }

/-- Fixture: second stage of candidate 1, assigned to interviewer 7. -/
def stageTwo : InterviewStage :=
  { id := 2, candidateId := some 1, stageIndex := 1, stageName := "Tech",
    interviewerId := some 7, status := "waiting", scheduledAt := Option.none,
    completedAt := Option.none, comments := Option.none, rating := Option.none,
    deletedAt := Option.none }

/-- Fixture: a booked interview on stage 1 (10:00–10:30 of day 0). -/
def ivOne : Interview :=
  { id := 1, stageId := 1, candidateId := some 1, interviewerId := 9,
    scheduledAt := 36000000, duration := some 30, status := "scheduled",
    outcome := Option.none, deletedAt := Option.none }

/-- Fixture database: candidate 1 with two stages and one booked interview. -/
def dbBase : DbState :=
  { candidates := [candOne], stages := [stageOne, stageTwo], interviews := [ivOne],
    notifications := [], nextStageId := 3, nextInterviewId := 2 }

/-- Fixture: a resubmitted chain that keeps only stage 2. -/
def specKeepTwo : StageSpec :=
  { id := some 2, stageName := "Tech", interviewerId := some 7, status := Option.none }

/-- Every branch of `updateInterviewStage` on a found stage row returns a
success value: the update writes and the transition run, never an error. -/
theorem updateInterviewStage_isOk_of_found (db : DbState) (id : Nat) (u : StageUpdate)
    (s0 : InterviewStage) (h : db.stages.find? (fun s => s.id == id) = some s0) :
    (updateInterviewStage db id u).isOk = true := by
  unfold updateInterviewStage
  rw [h]
  dsimp only
  repeat' split
  all_goals rfl

/-- C9 (amended): recording a stage outcome fails with the not-found error
exactly when no stage row with that id exists at all; a tombstoned stage
(`deletedAt` set) is found and updated like a live one, because neither the
update nor the transition query filters on `deletedAt`. -/
theorem updateInterviewStage_error_iff_absent (db : DbState) (id : Nat) (u : StageUpdate) :
    updateInterviewStage db id u = .error .notFound ↔
      db.stages.find? (fun s => s.id == id) = Option.none := by
  constructor
  · intro he
    cases h : db.stages.find? (fun s => s.id == id) with
    | none => rfl
    | some s0 =>
      exfalso
      have hok := updateInterviewStage_isOk_of_found db id u s0 h
      rw [he] at hok
      exact Bool.noConfusion hok
  · intro hn
    unfold updateInterviewStage
    rw [hn]

/-- Fixture: a candidate whose only stage is tombstoned. -/
def candTwo : Candidate :=
  { id := 2, currentStageIndex := 1, status := "active",
    rejectionReason := Option.none, rejectionStage := Option.none, deletedAt := Option.none }

/-- Fixture: a soft-deleted stage of candidate 2. -/
def tombstonedStage : InterviewStage :=
  { id := 3, candidateId := some 2, stageIndex := 1, stageName := "Ghost",
    interviewerId := some 9, status := "in_progress", scheduledAt := Option.none,
    completedAt := Option.none, comments := Option.none, rating := Option.none,
    deletedAt := some 1000 }

/-- Fixture database holding the tombstoned stage. -/
def dbTombstoned : DbState :=
  { candidates := [candTwo], stages := [tombstonedStage], interviews := [],
    notifications := [], nextStageId := 4, nextInterviewId := 1 }

/-- Fixture: a failed-outcome partial update with feedback. -/
def failUpd : StageUpdate :=
  { status := some "failed", scheduledAt := Option.none, completedAt := some 50000,
    comments := some "weak fit", rating := Option.none }

/-- C9 (counterexample): recording an outcome on a tombstoned stage does
not fail with a not-found error — it succeeds and still mutates the
candidate, contradicting the claim that tombstoned stages are rejected
with no state change. -/
theorem updateInterviewStage_tombstoned_proceeds :
    tombstonedStage.deletedAt ≠ Option.none ∧
    (updateInterviewStage dbTombstoned 3 failUpd).isOk = true ∧
    (okStateOf (updateInterviewStage dbTombstoned 3 failUpd)).candidates =
      [{ candTwo with
          status := "rejected", rejectionStage := some 1,
          rejectionReason := some "weak fit" }] := by decide

/-- C5: evaluating `syncInterviewStages` at a chain that drops stage 1
shows the removal is a hard delete, not a tombstone: the stage row and its
interview are gone from the state entirely (no record retained with a
deletion timestamp), while the kept stage 2 is reindexed with its status
and scheduledAt untouched. -/
theorem syncInterviewStages_hard_delete_eval :
    (syncInterviewStages dbBase 1 [specKeepTwo]).stages.find? (fun s => s.id == 1) =
      Option.none ∧
    (syncInterviewStages dbBase 1 [specKeepTwo]).interviews = [] ∧
    dbBase.stages.find? (fun s => s.id == 1) = some stageOne ∧
    dbBase.interviews = [ivOne] ∧
    (syncInterviewStages dbBase 1 [specKeepTwo]).stages.find? (fun s => s.id == 2) =
      some { stageTwo with stageIndex := 0 } := by decide

/-- C6: `DatabaseStorage.syncInterviewStages` runs its writes with no
transaction; a database failure at the second write (the stage delete)
leaves the first write (the interview delete) committed — the prior chain
is not restored. -/
theorem syncInterviewStages_partial_failure_eval :
    syncInterviewStagesWithFailure dbBase 1 [specKeepTwo] 1 =
      ({ dbBase with interviews := [] }, false) ∧
    dbBase.interviews ≠ [] := by decide

/-- C8: `rescheduleInterview` rewrites exactly the `scheduledAt` of the
targeted interview row, touches no other interview field, no stage row and
no candidate row, and, having no conflict check, succeeds for every new
time whatsoever.  (The wall-clock `updatedAt` stamp is outside the model.) -/
theorem rescheduleInterview_frame (db : DbState) (interviewId newDateTime : Nat)
    (i0 : Interview)
    (h : db.interviews.find? (fun i => i.id == interviewId) = some i0) :
    rescheduleInterview db interviewId newDateTime =
      ({ db with
          interviews := db.interviews.map (fun i =>
            if i.id == interviewId then { i with scheduledAt := newDateTime } else i),
          notifications := db.notifications ++
            [{ userId := i0.interviewerId, ntype := "interview_rescheduled",
               relatedEntityType := "interview", relatedEntityId := i0.id }] },
       some { i0 with scheduledAt := newDateTime }) := by
  unfold rescheduleInterview
  rw [h]

/-- Fixture: a second booking of interviewer 9 at 11:00 of day 0. -/
def ivTwo : Interview :=
  { id := 2, stageId := 2, candidateId := some 1, interviewerId := 9,
    scheduledAt := 39600000, duration := some 30, status := "scheduled",
    outcome := Option.none, deletedAt := Option.none }

/-- Fixture database where interviewer 9 holds two bookings. -/
def dbTwoBookings : DbState :=
  { dbBase with interviews := [ivOne, ivTwo], nextInterviewId := 3 }

/-- Witness for the reschedule frame theorem: moving booking 2 to 10:15,
which overlaps booking 1 of the same interviewer, still succeeds. -/
theorem rescheduleInterview_frame_witness :
    windowsOverlap 36900000 30 36000000 30 ∧
    rescheduleInterview dbTwoBookings 2 36900000 =
      ({ dbTwoBookings with
          interviews := dbTwoBookings.interviews.map (fun i =>
            if i.id == 2 then { i with scheduledAt := 36900000 } else i),
          notifications := dbTwoBookings.notifications ++
            [{ userId := ivTwo.interviewerId, ntype := "interview_rescheduled",
               relatedEntityType := "interview", relatedEntityId := ivTwo.id }] },
       some { ivTwo with scheduledAt := 36900000 }) :=
  ⟨by decide, rescheduleInterview_frame dbTwoBookings 2 36900000 ivTwo (by decide)⟩

/-- Every successful schedule call books the duration it was passed. -/
theorem scheduleInterview_ok_duration (db : DbState) (sid iid t d : Nat)
    (db' : DbState) (iv : Interview)
    (h : scheduleInterview db sid iid t d = .ok (db', iv)) : iv.duration = some d := by
  unfold scheduleInterview at h
  cases hh : ((db.interviews.filter (isDayCandidate iid t)).filter
      (overlapsNew t (t + d * msPerMinute))).head? with
  | some c =>
    rw [hh] at h
    exact Except.noConfusion h
  | none =>
    rw [hh] at h
    cases hs : db.stages.find? (fun s => s.id == sid) with
    | none =>
      rw [hs] at h
      exact Except.noConfusion h
    | some stg =>
      rw [hs] at h
      have h2 : scheduledInterviewRow db sid iid t d stg = iv :=
        congrArg (okValueOf junkInterview) h
      rw [← h2]
      rfl

/-- C10: the HTTP route substitutes 60 minutes when the duration field is
omitted or fails `parseInt` (`parseInt(duration) || 60`), while the core
function's own default parameter is 30 minutes; so API calls without an
explicit duration create 60-minute interviews, not 30-minute ones. -/
theorem routeSchedule_duration_defaults (db : DbState) (sid iid t : Nat)
    (db' : DbState) (iv : Interview) :
    (routeScheduleInterview db sid iid t Option.none = .ok (db', iv) →
      iv.duration = some 60) ∧
    (routeScheduleInterview db sid iid t (some Option.none) = .ok (db', iv) →
      iv.duration = some 60) ∧
    (scheduleInterviewDefault db sid iid t = .ok (db', iv) → iv.duration = some 30) := by
  refine ⟨?_, ?_, ?_⟩
  · intro h
    exact scheduleInterview_ok_duration db sid iid t 60 db' iv h
  · intro h
    exact scheduleInterview_ok_duration db sid iid t 60 db' iv h
  · intro h
    exact scheduleInterview_ok_duration db sid iid t 30 db' iv h

/-- Witness: on the fixture, an API call without a duration books 60
minutes while the core default books 30. -/
theorem routeSchedule_duration_defaults_witness :
    (okValueOf junkInterview
        (routeScheduleInterview dbBase 2 7 50400000 Option.none)).duration = some 60 ∧
    (okValueOf junkInterview
        (routeScheduleInterview dbBase 2 7 50400000 (some Option.none))).duration = some 60 ∧
    (okValueOf junkInterview
        (scheduleInterviewDefault dbBase 2 7 50400000)).duration = some 30 :=
  ⟨(routeSchedule_duration_defaults dbBase 2 7 50400000
      (okStateOf (routeScheduleInterview dbBase 2 7 50400000 Option.none))
      (okValueOf junkInterview (routeScheduleInterview dbBase 2 7 50400000 Option.none))).1
      rfl,
   (routeSchedule_duration_defaults dbBase 2 7 50400000
      (okStateOf (routeScheduleInterview dbBase 2 7 50400000 (some Option.none)))
      (okValueOf junkInterview
        (routeScheduleInterview dbBase 2 7 50400000 (some Option.none)))).2.1
      rfl,
   (routeSchedule_duration_defaults dbBase 2 7 50400000
      (okStateOf (scheduleInterviewDefault dbBase 2 7 50400000))
      (okValueOf junkInterview (scheduleInterviewDefault dbBase 2 7 50400000))).2.2
      rfl⟩

/-- The code's conflict predicate, spelled out: the pair of filters of the
conflict query holds of an interview row iff it belongs to the interviewer,
is `'scheduled'`, starts between midnight and the last whole second of the
requested day, and its busy window overlaps the requested one. -/
theorem conflictPred_iff (iid t d : Nat) (i : Interview) :
    (isDayCandidate iid t i = true ∧ overlapsNew t (t + d * msPerMinute) i = true) ↔
      (i.interviewerId = iid ∧ i.status = "scheduled" ∧
       dayStartMs t ≤ i.scheduledAt ∧ i.scheduledAt ≤ dayEndSecondMs t ∧
       t < i.scheduledAt + (i.duration.getD 30) * msPerMinute ∧
       i.scheduledAt < t + d * msPerMinute) := by
  simp only [isDayCandidate, overlapsNew, interviewWindowEnd, Bool.and_eq_true,
    decide_eq_true_eq, beq_iff_eq, gt_iff_lt, and_assoc]

/-- C1 (amended): the schedule call fails with the conflict error iff some
existing interview of that interviewer with status `'scheduled'`, whose
`scheduledAt` lies between midnight and 23:59:59.000 of the requested day
(the implemented bound for "same calendar day"), has a half-open busy
window — a null duration counting as 30 minutes — overlapping the new
window; the error names the first conflicting interview's time.  In the
embedding an error carries no state: the source throws before its first
write, so no interview row is inserted and no stage is modified on
conflict. -/
theorem scheduleInterview_conflict_error_iff_window (db : DbState) (sid iid t d : Nat) :
    ((∃ c, scheduleInterview db sid iid t d = .error (.conflict c)) ↔
      ∃ i ∈ db.interviews, i.interviewerId = iid ∧ i.status = "scheduled" ∧
        dayStartMs t ≤ i.scheduledAt ∧ i.scheduledAt ≤ dayEndSecondMs t ∧
        t < i.scheduledAt + (i.duration.getD 30) * msPerMinute ∧
        i.scheduledAt < t + d * msPerMinute) ∧
    (∀ c, scheduleInterview db sid iid t d = .error (.conflict c) →
      ∃ i, ((db.interviews.filter (isDayCandidate iid t)).filter
          (overlapsNew t (t + d * msPerMinute))).head? = some i ∧ c = i.scheduledAt) := by
  cases hh : ((db.interviews.filter (isDayCandidate iid t)).filter
      (overlapsNew t (t + d * msPerMinute))).head? with
  | some c0 =>
    have hres : scheduleInterview db sid iid t d = .error (.conflict c0.scheduledAt) := by
      unfold scheduleInterview
      rw [hh]
    have hmem : c0 ∈ (db.interviews.filter (isDayCandidate iid t)).filter
        (overlapsNew t (t + d * msPerMinute)) :=
      List.mem_of_mem_head? (Option.mem_def.mpr hh)
    obtain ⟨h1, hov⟩ := List.mem_filter.mp hmem
    obtain ⟨hmem0, hday⟩ := List.mem_filter.mp h1
    refine ⟨⟨fun _ => ⟨c0, hmem0, (conflictPred_iff iid t d c0).mp ⟨hday, hov⟩⟩,
            fun _ => ⟨c0.scheduledAt, hres⟩⟩, ?_⟩
    intro c hc
    rw [hres] at hc
    simp only [Except.error.injEq, StorageError.conflict.injEq] at hc
    exact ⟨c0, rfl, hc.symm⟩
  | none =>
    have hnil : (db.interviews.filter (isDayCandidate iid t)).filter
        (overlapsNew t (t + d * msPerMinute)) = [] := by
      rwa [List.head?_eq_none_iff] at hh
    have hnoerr : ∀ c, scheduleInterview db sid iid t d ≠ .error (.conflict c) := by
      intro c hc
      unfold scheduleInterview at hc
      rw [hh] at hc
      cases hfind : db.stages.find? (fun s => s.id == sid) with
      | none =>
        rw [hfind] at hc
        exact StorageError.noConfusion (Except.error.inj hc)
      | some stg =>
        rw [hfind] at hc
        exact Except.noConfusion hc
    refine ⟨⟨fun hex => absurd hex.choose_spec (hnoerr hex.choose), fun hex => ?_⟩,
            fun c hc => absurd hc (hnoerr c)⟩
    exfalso
    obtain ⟨i, hmem, hprops⟩ := hex
    have hin : i ∈ (db.interviews.filter (isDayCandidate iid t)).filter
        (overlapsNew t (t + d * msPerMinute)) := by
      have hp := (conflictPred_iff iid t d i).mpr hprops
      exact List.mem_filter.mpr ⟨List.mem_filter.mpr ⟨hmem, hp.1⟩, hp.2⟩
    rw [hnil] at hin
    exact absurd hin (List.not_mem_nil i)

/-- Witness: on the two-booking fixture, scheduling interviewer 9 at 10:15
fails with the conflict error naming the 10:00 booking, the head of the
conflict list. -/
theorem scheduleInterview_conflict_error_iff_window_witness :
    ∃ i, ((dbTwoBookings.interviews.filter (isDayCandidate 9 36900000)).filter
        (overlapsNew 36900000 (36900000 + 30 * msPerMinute))).head? = some i ∧
      (36000000 : Nat) = i.scheduledAt :=
  (scheduleInterview_conflict_error_iff_window dbTwoBookings 1 9 36900000 30).2
    36000000 rfl

/-- Two timestamps fall on the same calendar day. -/
abbrev sameCalendarDay (a b : Nat) : Prop := a / msPerDay = b / msPerDay

/-- C1 as stated by the spec: conflict error iff some scheduled interview
of the interviewer on the same calendar day overlaps the new window. -/
def conflictIffSameDayOverlap (db : DbState) (sid iid t d : Nat) : Prop :=
  (∃ c, scheduleInterview db sid iid t d = .error (.conflict c)) ↔
    ∃ i ∈ db.interviews, i.interviewerId = iid ∧ i.status = "scheduled" ∧
      sameCalendarDay i.scheduledAt t ∧
      t < i.scheduledAt + (i.duration.getD 30) * msPerMinute ∧
      i.scheduledAt < t + d * msPerMinute

/-- Fixture: a booking in the last second of day 0 (23:59:59.500). -/
def edgeIv : Interview :=
  { id := 1, stageId := 1, candidateId := some 1, interviewerId := 1,
    scheduledAt := 86399500, duration := some 30, status := "scheduled",
    outcome := Option.none, deletedAt := Option.none }

/-- Fixture: a stage to book against at the day edge. -/
def stageEdge : InterviewStage :=
  { id := 1, candidateId := some 1, stageIndex := 0, stageName := "S",
    interviewerId := some 1, status := "waiting", scheduledAt := Option.none,
    completedAt := Option.none, comments := Option.none, rating := Option.none,
    deletedAt := Option.none }

/-- Fixture database for the day-edge counterexample. -/
def dbDayEdge : DbState :=
  { candidates := [candOne], stages := [stageEdge], interviews := [edgeIv],
    notifications := [], nextStageId := 2, nextInterviewId := 2 }

/-- C1 (counterexample): the day filter's upper bound is 23:59:59.000, so a
scheduled same-day interview starting at 23:59:59.500 that overlaps the
requested window is not loaded and the call succeeds instead of failing
with a conflict error — the stated "same calendar day" equivalence fails. -/
theorem scheduleInterview_sameday_claim_refuted :
    ¬ conflictIffSameDayOverlap dbDayEdge 1 1 86399600 1 := by
  intro hcl
  obtain ⟨c, hc⟩ := hcl.mpr (by decide)
  have hok : (scheduleInterview dbDayEdge 1 1 86399600 1).isOk = true := by decide
  rw [hc] at hok
  exact Bool.noConfusion hok

/-- Fixture: an empty pipeline for candidate 1. -/
def c2db0 : DbState :=
  { candidates := [candOne], stages := [], interviews := [], notifications := [],
    nextStageId := 1, nextInterviewId := 1 }

/-- Fixture: fresh stage entry A, interviewer 1. -/
def specA : StageSpec :=
  { id := Option.none, stageName := "A", interviewerId := some 1, status := Option.none }

/-- Fixture: fresh stage entry B, interviewer 1. -/
def specB : StageSpec :=
  { id := Option.none, stageName := "B", interviewerId := some 1, status := Option.none }

/-- State after submitting the chain [A, B] for candidate 1. -/
def c2db1 : DbState := syncInterviewStages c2db0 1 [specA, specB]

/-- State after booking stage 1 for interviewer 1 at 10:00. -/
def c2db2 : DbState := okStateOf (scheduleInterview c2db1 1 1 36000000 30)

/-- State after booking stage 2 for interviewer 1 at 11:00. -/
def c2db3 : DbState := okStateOf (scheduleInterview c2db2 2 1 39600000 30)

/-- State after rescheduling booking 2 to 10:15. -/
def c2db4 : DbState := (rescheduleInterview c2db3 2 36900000).1

/-- C2 (counterexample): a state reachable by the core operations alone —
sync the chain, book 10:00 and 11:00 for one interviewer, then reschedule
the second booking to 10:15 — violates the no-double-booking invariant,
because `rescheduleInterview` runs no conflict check. -/
theorem reschedule_breaks_noDoubleBooking :
    (scheduleInterview c2db1 1 1 36000000 30).isOk = true ∧
    (scheduleInterview c2db2 2 1 39600000 30).isOk = true ∧
    ((rescheduleInterview c2db3 2 36900000).2).isSome = true ∧
    ¬ noDoubleBooking c2db4 := by decide

/-- If two busy windows overlap and each lies inside its own calendar day,
with minute-aligned starts, then the second window's start falls inside the
day bracket `[midnight, 23:59:59.000]` that the conflict query scans. -/
theorem day_bounds_of_overlap (s ds e de : Nat)
    (hs : windowInDay s ds) (he : windowInDay e de)
    (h1 : s < e + de * msPerMinute) (h2 : e < s + ds * msPerMinute) :
    dayStartMs s ≤ e ∧ e ≤ dayEndSecondMs s := by
  simp only [windowInDay, msPerMinute, msPerDay, dayStartMs, dayEndSecondMs] at *
  omega

/-- C2 (amended): `scheduleInterview` does preserve the no-double-booking
invariant restricted to the rows its conflict check can see — interviews
with status `'scheduled'` whose minute-aligned busy windows do not cross
midnight; `rescheduleInterview` (no conflict check) and windows crossing a
calendar-day boundary are outside this guarantee, as the counterexample
shows. -/
theorem scheduleInterview_preserves_scheduledNoOverlap
    (db : DbState) (sid iid t d : Nat) (db' : DbState) (iv : Interview)
    (hinv : scheduledNoOverlap db)
    (hdays : ∀ i ∈ db.interviews, i.status = "scheduled" →
      windowInDay i.scheduledAt (i.duration.getD 30))
    (hnew : windowInDay t d)
    (hok : scheduleInterview db sid iid t d = .ok (db', iv)) :
    scheduledNoOverlap db' := by
  unfold scheduleInterview at hok
  cases hh : ((db.interviews.filter (isDayCandidate iid t)).filter
      (overlapsNew t (t + d * msPerMinute))).head? with
  | some c0 =>
    rw [hh] at hok
    exact Except.noConfusion hok
  | none =>
    rw [hh] at hok
    cases hs : db.stages.find? (fun s => s.id == sid) with
    | none =>
      rw [hs] at hok
      exact Except.noConfusion hok
    | some stg =>
      rw [hs] at hok
      have hdb : scheduleCommit db sid iid t d stg = db' := congrArg okStateOf hok
      rw [← hdb]
      have hnil : (db.interviews.filter (isDayCandidate iid t)).filter
          (overlapsNew t (t + d * msPerMinute)) = [] := by
        rwa [List.head?_eq_none_iff] at hh
      have hnoc : ∀ i ∈ db.interviews,
          ¬(isDayCandidate iid t i = true ∧
            overlapsNew t (t + d * msPerMinute) i = true) := by
        intro i hi hpair
        have hmem : i ∈ (db.interviews.filter (isDayCandidate iid t)).filter
            (overlapsNew t (t + d * msPerMinute)) :=
          List.mem_filter.mpr ⟨List.mem_filter.mpr ⟨hi, hpair.1⟩, hpair.2⟩
        rw [hnil] at hmem
        exact absurd hmem (List.not_mem_nil i)
      have hcontradiction : ∀ i ∈ db.interviews, i.interviewerId = iid →
          i.status = "scheduled" →
          ¬ windowsOverlap t d i.scheduledAt (i.duration.getD 30) := by
        intro i hi hint hstat hov
        have hbounds := day_bounds_of_overlap t d i.scheduledAt (i.duration.getD 30)
          hnew (hdays i hi hstat) hov.1 hov.2
        exact hnoc i hi ((conflictPred_iff iid t d i).mpr
          ⟨hint, hstat, hbounds.1, hbounds.2, hov.1, hov.2⟩)
      intro i hi j hj hne hsameInt hiSched hjSched
      simp only [scheduleCommit, List.mem_append, List.mem_singleton] at hi hj
      rcases hi with hi | hi <;> rcases hj with hj | hj
      · exact hinv i hi j hj hne hsameInt hiSched hjSched
      · subst hj
        simp only [scheduledInterviewRow] at hsameInt ⊢
        intro hov
        exact hcontradiction i hi hsameInt hiSched ⟨hov.2, hov.1⟩
      · subst hi
        simp only [scheduledInterviewRow] at hsameInt ⊢
        intro hov
        exact hcontradiction j hj hsameInt.symm hjSched ⟨hov.1, hov.2⟩
      · subst hi
        subst hj
        exact absurd rfl hne

/-- Witness: booking on the synced chain succeeds and the restricted
invariant holds afterwards. -/
theorem scheduleInterview_preserves_scheduledNoOverlap_witness :
    scheduledNoOverlap (okStateOf (scheduleInterview c2db1 1 1 36000000 30)) :=
  scheduleInterview_preserves_scheduledNoOverlap c2db1 1 1 36000000 30
    (okStateOf (scheduleInterview c2db1 1 1 36000000 30))
    (okValueOf junkInterview (scheduleInterview c2db1 1 1 36000000 30))
    (by decide) (by decide) (by decide) rfl

/-- A by-id candidate update leaves a by-id lookup pointing at the updated
record: advancing `currentStageIndex` keeps every other field, status
included. -/
theorem advance_find (db : DbState) (cid idx : Nat) (c : Candidate)
    (hc : db.candidates.find? (fun x => x.id == cid) = some c) :
    (advanceCandidateIndex db cid idx).candidates.find? (fun x => x.id == cid) =
      some { c with currentStageIndex := idx } := by
  have hpres : ∀ a : Candidate,
      (((if a.id == cid then ({ a with currentStageIndex := idx } : Candidate)
         else a).id == cid)) = (a.id == cid) := by
    intro a
    by_cases hh : (a.id == cid) = true
    · simp [hh]
    · simp [hh]
  unfold advanceCandidateIndex
  dsimp only
  rw [find?_map_pred_preserving db.candidates _ _ hpres, hc]
  have hcp := List.find?_some hc
  simp only [Option.map_some']
  simp [hcp]

/-- Stacking the documentation transition on top of the index advance. -/
theorem advance_doc_find (db : DbState) (cid idx : Nat) (c : Candidate)
    (hc : db.candidates.find? (fun x => x.id == cid) = some c) :
    (setCandidateDocumentation (advanceCandidateIndex db cid idx) cid).candidates.find?
        (fun x => x.id == cid) =
      some { c with currentStageIndex := idx, status := "documentation" } := by
  have h1 := advance_find db cid idx c hc
  have hpres : ∀ a : Candidate,
      (((if a.id == cid then ({ a with status := "documentation" } : Candidate)
         else a).id == cid)) = (a.id == cid) := by
    intro a
    by_cases hh : (a.id == cid) = true
    · simp [hh]
    · simp [hh]
  unfold setCandidateDocumentation
  dsimp only
  rw [find?_map_pred_preserving _ _ _ hpres, h1]
  have hcp := List.find?_some hc
  simp only [Option.map_some']
  simp [hcp]

/-- Rejecting a candidate by id updates the looked-up record in place. -/
theorem reject_find (db : DbState) (cid stageIdx : Nat) (reason : String) (c : Candidate)
    (hc : db.candidates.find? (fun x => x.id == cid) = some c) :
    (rejectCandidate db cid stageIdx reason).candidates.find? (fun x => x.id == cid) =
      some { c with
              status := "rejected", rejectionStage := some stageIdx,
              rejectionReason := some reason } := by
  have hpres : ∀ a : Candidate,
      (((if a.id == cid then
          ({ a with
              status := "rejected", rejectionStage := some stageIdx,
              rejectionReason := some reason } : Candidate)
        else a).id == cid)) = (a.id == cid) := by
    intro a
    by_cases hh : (a.id == cid) = true
    · simp [hh]
    · simp [hh]
  unfold rejectCandidate
  dsimp only
  rw [find?_map_pred_preserving db.candidates _ _ hpres, hc]
  have hcp := List.find?_some hc
  simp only [Option.map_some']
  simp [hcp]

/-- C4: on outcome `'failed'` for a live stage of an existing candidate,
the stage update is persisted and the candidate is marked `rejected` with
`rejectionStage` equal to the numeric `stageIndex` of the stage and
`rejectionReason` equal to the supplied comments, a missing or empty
comments string falling back to the fixed reason `'Failed interview
stage'`; interviews and notifications are untouched. -/
theorem updateInterviewStage_failed_rejects
    (db : DbState) (sid : Nat) (u : StageUpdate) (s : InterviewStage) (cid : Nat)
    (c : Candidate)
    (hs : db.stages.find? (fun x => x.id == sid) = some s)
    (hlive : s.deletedAt = Option.none)
    (hcid : s.candidateId = some cid)
    (hc : db.candidates.find? (fun x => x.id == cid) = some c)
    (hu : u.status = some "failed") :
    updateInterviewStage db sid u =
      .ok (rejectCandidate (stageUpdatedDb db sid u) cid s.stageIndex
            (rejectionReasonOf u.comments), applyStageUpdate s u) ∧
    (rejectCandidate (stageUpdatedDb db sid u) cid s.stageIndex
        (rejectionReasonOf u.comments)).stages =
      db.stages.map (fun x => if x.id == sid then applyStageUpdate x u else x) ∧
    (rejectCandidate (stageUpdatedDb db sid u) cid s.stageIndex
        (rejectionReasonOf u.comments)).interviews = db.interviews ∧
    (rejectCandidate (stageUpdatedDb db sid u) cid s.stageIndex
        (rejectionReasonOf u.comments)).notifications = db.notifications ∧
    (rejectCandidate (stageUpdatedDb db sid u) cid s.stageIndex
        (rejectionReasonOf u.comments)).candidates.find? (fun x => x.id == cid) =
      some { c with
              status := "rejected", rejectionStage := some s.stageIndex,
              rejectionReason := some (rejectionReasonOf u.comments) } := by
  refine ⟨?_, rfl, rfl, rfl,
    reject_find (stageUpdatedDb db sid u) cid s.stageIndex (rejectionReasonOf u.comments) c hc⟩
  unfold updateInterviewStage
  rw [hs, hu]
  dsimp only
  rw [if_neg (show ¬(((some "failed" : Option String) == some "passed") = true) by decide)]
  rw [if_pos (show (((some "failed" : Option String) == some "failed") = true) by decide)]
  rw [show (applyStageUpdate s u).candidateId = some cid from hcid]
  dsimp only
  rfl

/-- Witness: failing stage 2 of the fixture rejects candidate 1 with
rejectionStage 1 and the supplied feedback as reason. -/
theorem updateInterviewStage_failed_rejects_witness :
    updateInterviewStage dbBase 2 failUpd =
      .ok (rejectCandidate (stageUpdatedDb dbBase 2 failUpd) 1 stageTwo.stageIndex
            (rejectionReasonOf failUpd.comments), applyStageUpdate stageTwo failUpd) ∧
    (rejectCandidate (stageUpdatedDb dbBase 2 failUpd) 1 stageTwo.stageIndex
        (rejectionReasonOf failUpd.comments)).stages =
      dbBase.stages.map (fun x => if x.id == 2 then applyStageUpdate x failUpd else x) ∧
    (rejectCandidate (stageUpdatedDb dbBase 2 failUpd) 1 stageTwo.stageIndex
        (rejectionReasonOf failUpd.comments)).interviews = dbBase.interviews ∧
    (rejectCandidate (stageUpdatedDb dbBase 2 failUpd) 1 stageTwo.stageIndex
        (rejectionReasonOf failUpd.comments)).notifications = dbBase.notifications ∧
    (rejectCandidate (stageUpdatedDb dbBase 2 failUpd) 1 stageTwo.stageIndex
        (rejectionReasonOf failUpd.comments)).candidates.find? (fun x => x.id == 1) =
      some { candOne with
              status := "rejected", rejectionStage := some stageTwo.stageIndex,
              rejectionReason := some (rejectionReasonOf failUpd.comments) } :=
  updateInterviewStage_failed_rejects dbBase 2 failUpd stageTwo 1 candOne rfl rfl rfl rfl rfl

/-- C3: on outcome `'passed'` for a live stage of an existing candidate,
the stage update is persisted and the candidate's `currentStageIndex`
becomes `stageIndex + 1` with the candidate's status untouched; when the
lookup finds a stage at the new index its own row is left as the update
step left it and a notification goes to its interviewer if one is
assigned; when no stage sits at the new index the candidate's status
becomes `'documentation'`.  Interviews are untouched throughout. -/
theorem updateInterviewStage_passed_advances
    (db : DbState) (sid : Nat) (u : StageUpdate) (s : InterviewStage) (cid : Nat)
    (c : Candidate)
    (hs : db.stages.find? (fun x => x.id == sid) = some s)
    (hlive : s.deletedAt = Option.none)
    (hcid : s.candidateId = some cid)
    (hc : db.candidates.find? (fun x => x.id == cid) = some c)
    (hu : u.status = some "passed") :
    ∃ db', updateInterviewStage db sid u = .ok (db', applyStageUpdate s u) ∧
      db'.stages = db.stages.map (fun x => if x.id == sid then applyStageUpdate x u else x) ∧
      db'.interviews = db.interviews ∧
      (match (stageUpdatedDb db sid u).stages.find? (fun x =>
          x.candidateId == some cid && x.stageIndex == s.stageIndex + 1) with
       | some nextStage =>
         db'.candidates.find? (fun x => x.id == cid) =
           some { c with currentStageIndex := s.stageIndex + 1 } ∧
         ((∃ iid, nextStage.interviewerId = some iid ∧
             db'.notifications = db.notifications ++
               [{ userId := iid, ntype := "interview_assigned",
                  relatedEntityType := "interview_stage",
                  relatedEntityId := nextStage.id }]) ∨
          (nextStage.interviewerId = Option.none ∧
           db'.notifications = db.notifications))
       | Option.none =>
         db'.candidates.find? (fun x => x.id == cid) =
           some { c with
                   currentStageIndex := s.stageIndex + 1,
                   status := "documentation" } ∧
         db'.notifications = db.notifications) := by
  have hcid2 : (applyStageUpdate s u).candidateId = some cid := hcid
  have hfind1 : (stageUpdatedDb db sid u).candidates.find? (fun x => x.id == cid) = some c := hc
  have hidx : (applyStageUpdate s u).stageIndex = s.stageIndex := rfl
  unfold updateInterviewStage
  rw [hs, hu]
  dsimp only
  rw [if_pos (show (((some "passed" : Option String) == some "passed") = true) by decide)]
  rw [hcid2]
  dsimp only
  rw [hfind1]
  dsimp only
  rw [hidx]
  rw [show (advanceCandidateIndex (stageUpdatedDb db sid u) cid (s.stageIndex + 1)).stages
        = (stageUpdatedDb db sid u).stages from rfl]
  cases hnext : (stageUpdatedDb db sid u).stages.find? (fun x =>
      x.candidateId == some cid && x.stageIndex == s.stageIndex + 1) with
  | some nxt =>
    dsimp only
    cases hiid : nxt.interviewerId with
    | some iid =>
      dsimp only
      exact ⟨pushNotification
          (advanceCandidateIndex (stageUpdatedDb db sid u) cid (s.stageIndex + 1))
          { userId := iid, ntype := "interview_assigned",
            relatedEntityType := "interview_stage", relatedEntityId := nxt.id },
        rfl, rfl, rfl,
        advance_find (stageUpdatedDb db sid u) cid (s.stageIndex + 1) c hfind1,
        Or.inl ⟨iid, rfl, rfl⟩⟩
    | none =>
      dsimp only
      exact ⟨advanceCandidateIndex (stageUpdatedDb db sid u) cid (s.stageIndex + 1),
        rfl, rfl, rfl,
        advance_find (stageUpdatedDb db sid u) cid (s.stageIndex + 1) c hfind1,
        Or.inr ⟨rfl, rfl⟩⟩
  | none =>
    dsimp only
    exact ⟨setCandidateDocumentation
        (advanceCandidateIndex (stageUpdatedDb db sid u) cid (s.stageIndex + 1)) cid,
      rfl, rfl, rfl,
      advance_doc_find (stageUpdatedDb db sid u) cid (s.stageIndex + 1) c hfind1,
      rfl⟩

/-- Fixture: a passed-outcome partial update with feedback and rating. -/
def passUpd : StageUpdate :=
  { status := some "passed", scheduledAt := Option.none, completedAt := some 40000000,
    comments := some "ok", rating := some 5 }

/-- Witness: passing stage 1 of the fixture advances candidate 1 to index
1, leaves stage 2 as is, and notifies its interviewer 7. -/
theorem updateInterviewStage_passed_advances_witness :
    ∃ db', updateInterviewStage dbBase 1 passUpd = .ok (db', applyStageUpdate stageOne passUpd) ∧
      db'.stages = dbBase.stages.map (fun x =>
        if x.id == 1 then applyStageUpdate x passUpd else x) ∧
      db'.interviews = dbBase.interviews ∧
      (match (stageUpdatedDb dbBase 1 passUpd).stages.find? (fun x =>
          x.candidateId == some 1 && x.stageIndex == stageOne.stageIndex + 1) with
       | some nextStage =>
         db'.candidates.find? (fun x => x.id == 1) =
           some { candOne with currentStageIndex := stageOne.stageIndex + 1 } ∧
         ((∃ iid, nextStage.interviewerId = some iid ∧
             db'.notifications = dbBase.notifications ++
               [{ userId := iid, ntype := "interview_assigned",
                  relatedEntityType := "interview_stage",
                  relatedEntityId := nextStage.id }]) ∨
          (nextStage.interviewerId = Option.none ∧
           db'.notifications = dbBase.notifications))
       | Option.none =>
         db'.candidates.find? (fun x => x.id == 1) =
           some { candOne with
                   currentStageIndex := stageOne.stageIndex + 1,
                   status := "documentation" } ∧
         db'.notifications = dbBase.notifications) :=
  updateInterviewStage_passed_advances dbBase 1 passUpd stageOne 1 candOne rfl rfl rfl rfl rfl

/-- The delete phase of a resync never touches a stage whose id it was not
asked to delete: a lookup for such an id is stable across the folds. -/
theorem syncDeletes_find_stable (ds : List InterviewStage) (db : DbState) (target : Nat)
    (x : InterviewStage)
    (hfind : db.stages.find? (fun t => t.id == target) = some x)
    (hne : ∀ d ∈ ds, d.id ≠ target) :
    (ds.foldl (fun d t => deleteStageStep d t.id) db).stages.find?
      (fun t => t.id == target) = some x := by
  induction ds generalizing db with
  | nil => exact hfind
  | cons a rest ih =>
    rw [List.foldl_cons]
    apply ih
    · show (db.stages.filter (fun t => !(t.id == a.id))).find?
        (fun t => t.id == target) = some x
      rw [find?_filter_of_imp]
      · exact hfind
      · intro b hb
        have hbt : b.id = target := by simpa using hb
        have ha : a.id ≠ target := hne a (List.mem_cons_self a rest)
        rw [Bool.not_eq_true', beq_eq_false_iff_ne, hbt]
        exact fun h => ha h.symm
    · intro d hd
      exact hne d (List.mem_cons_of_mem a hd)

/-- The upsert phase of a resync never touches a stage whose id none of the
remaining entries carries: a lookup for such an id is stable. -/
theorem upsertFold_find_stable (l : List (Nat × StageSpec)) (cid : Nat)
    (existingIds : List Nat) (db : DbState) (target : Nat) (x : InterviewStage)
    (hfind : db.stages.find? (fun t => t.id == target) = some x)
    (hne : ∀ p ∈ l, p.2.id ≠ some target) :
    (l.foldl (upsertStageStep cid existingIds) db).stages.find?
      (fun t => t.id == target) = some x := by
  induction l generalizing db with
  | nil => exact hfind
  | cons a rest ih =>
    rw [List.foldl_cons]
    apply ih
    · have hxid : x.id = target := by simpa using List.find?_some hfind
      cases ha : a.2.id with
      | none =>
        unfold upsertStageStep
        dsimp only
        rw [ha]
        exact find?_append_some db.stages _ _ x hfind
      | some sid =>
        have hsid : sid ≠ target := by
          have h0 := hne a (List.mem_cons_self a rest)
          rw [ha] at h0
          exact fun h => h0 (by rw [h])
        unfold upsertStageStep
        dsimp only
        rw [ha]
        dsimp only
        by_cases hcont : existingIds.contains sid = true
        · rw [if_pos hcont]
          have hpres : ∀ b : InterviewStage,
              ((if b.id == sid then
                  ({ b with
                      stageIndex := a.1, stageName := a.2.stageName,
                      interviewerId := a.2.interviewerId } : InterviewStage)
                else b).id == sid) = (b.id == sid) := by
            intro b
            by_cases hb : (b.id == sid) = true
            · simp [hb]
            · simp [hb]
          have hpres2 : ∀ b : InterviewStage,
              ((if b.id == sid then
                  ({ b with
                      stageIndex := a.1, stageName := a.2.stageName,
                      interviewerId := a.2.interviewerId } : InterviewStage)
                else b).id == target) = (b.id == target) := by
            intro b
            by_cases hb : (b.id == sid) = true
            · simp [hb]
            · simp [hb]
          dsimp only
          rw [find?_map_pred_preserving db.stages _ _ hpres2, hfind]
          rw [Option.map_some']
          have hxs : (x.id == sid) = false :=
            beq_eq_false_iff_ne.mpr (by rw [hxid]; exact fun h => hsid h.symm)
          simp [hxs]
        · rw [if_neg hcont]
          exact find?_append_some db.stages _ _ x hfind
    · intro d hd
      exact hne d (List.mem_cons_of_mem a hd)

/-- The upsert step on the entry carrying a stored stage's id rewrites
exactly `stageIndex`, `stageName` and `interviewerId` of that stage,
keeping every other column. -/
theorem upsertStep_hit (cid : Nat) (existingIds : List Nat) (db : DbState)
    (i : Nat) (e : StageSpec) (s : InterviewStage)
    (hfind : db.stages.find? (fun x => x.id == s.id) = some s)
    (hid : e.id = some s.id)
    (hcont : existingIds.contains s.id = true) :
    (upsertStageStep cid existingIds db (i, e)).stages.find? (fun x => x.id == s.id) =
      some { s with
              stageIndex := i, stageName := e.stageName,
              interviewerId := e.interviewerId } := by
  unfold upsertStageStep
  dsimp only
  rw [hid]
  dsimp only
  rw [if_pos hcont]
  have hpres : ∀ b : InterviewStage,
      ((if b.id == s.id then
          ({ b with
              stageIndex := i, stageName := e.stageName,
              interviewerId := e.interviewerId } : InterviewStage)
        else b).id == s.id) = (b.id == s.id) := by
    intro b
    by_cases hb : (b.id == s.id) = true
    · simp [hb]
    · simp [hb]
  dsimp only
  rw [find?_map_pred_preserving db.stages _ _ hpres, hfind]
  rw [Option.map_some']
  simp

/-- C7: resyncing a chain whose entry at position `i` carries the id of a
live stored stage of the candidate sets that stage's `stageIndex` to `i`
and its `stageName`/`interviewerId` from the entry, while `status`,
`scheduledAt`, `completedAt`, `comments`, `rating` (and every other
column) are untouched — a reordered resubmission never resets progress. -/
theorem syncInterviewStages_update_preserves_progress
    (db : DbState) (cid : Nat) (specs : List StageSpec) (s : InterviewStage)
    (i : Nat) (e : StageSpec) (pre post : List (Nat × StageSpec))
    (hfind : db.stages.find? (fun x => x.id == s.id) = some s)
    (hcid : s.candidateId = some cid)
    (hlive : s.deletedAt = Option.none)
    (hsplit : specs.enum = pre ++ (i, e) :: post)
    (hid : e.id = some s.id)
    (hpre : ∀ p ∈ pre, p.2.id ≠ some s.id)
    (hpost : ∀ p ∈ post, p.2.id ≠ some s.id) :
    (syncInterviewStages db cid specs).stages.find? (fun x => x.id == s.id) =
      some { s with
              stageIndex := i, stageName := e.stageName,
              interviewerId := e.interviewerId } := by
  have hmem : s ∈ db.stages := List.mem_of_find?_eq_some hfind
  have hein : e ∈ specs := by
    have h1 : (i, e) ∈ specs.enum := by
      rw [hsplit]
      exact List.mem_append_right _ (List.mem_cons_self _ _)
    have h2 := List.mem_map_of_mem Prod.snd h1
    rwa [List.enum_map_snd] at h2
  have hsidnew : s.id ∈ specs.filterMap (fun sp => sp.id) :=
    List.mem_filterMap.mpr ⟨e, hein, hid⟩
  have hcont : ((db.stages.filter (fun x => x.candidateId == some cid)).map
      (fun x => x.id)).contains s.id = true := by
    apply List.elem_iff.mpr
    refine List.mem_map.mpr ⟨s, ?_, rfl⟩
    refine List.mem_filter.mpr ⟨hmem, ?_⟩
    simp [hcid]
  unfold syncInterviewStages
  dsimp only
  rw [hsplit, List.foldl_append, List.foldl_cons]
  refine upsertFold_find_stable post cid _ _ s.id _ ?_ hpost
  refine upsertStep_hit cid _ _ i e s ?_ hid hcont
  refine upsertFold_find_stable pre cid _ _ s.id s ?_ hpre
  apply syncDeletes_find_stable _ _ _ _ hfind
  intro d hd
  have h2 := (List.mem_filter.mp hd).2
  rw [Bool.not_eq_true'] at h2
  intro hcontra
  rw [hcontra] at h2
  have h3 : (specs.filterMap (fun sp => sp.id)).contains s.id = true :=
    List.elem_iff.mpr hsidnew
  rw [h3] at h2
  exact Bool.noConfusion h2

/-- Fixture: resubmitted entry keeping stage 1 under a new name, position
and interviewer. -/
def specE1 : StageSpec :=
  { id := some 1, stageName := "ScreeningX", interviewerId := some 6,
    status := Option.none }

/-- Fixture: resubmitted entry keeping stage 2. -/
def specE2 : StageSpec :=
  { id := some 2, stageName := "TechX", interviewerId := some 5,
    status := Option.none }

/-- Witness: resubmitting the fixture chain reordered as [stage 2, stage 1]
moves stage 1 to index 1 with the new name and interviewer while its
status, scheduledAt and the rest stay exactly as stored. -/
theorem syncInterviewStages_update_preserves_progress_witness :
    (syncInterviewStages dbBase 1 [specE2, specE1]).stages.find? (fun x => x.id == 1) =
      some { stageOne with
              stageIndex := 1, stageName := specE1.stageName,
              interviewerId := specE1.interviewerId } :=
  syncInterviewStages_update_preserves_progress dbBase 1 [specE2, specE1] stageOne 1 specE1
    [(0, specE2)] [] rfl rfl rfl rfl rfl (by decide) (by decide)
